import Mathlib

/-
Verification of the user-context osquery execution table
(orbit/pkg/table/user_exec/exec.go).

The Go code is shallowly embedded: pure control flow is translated
directly, and the effectful operations (user.Lookup, os.MkdirTemp,
os.Chmod, cmd.Run, json.Unmarshal) are parameterised by an environment
record giving each call's outcome.  Filesystem- and process-visible
actions are recorded in an event trace so that properties about
permissions, cleanup and spawned subprocesses can be stated.
-/

set_option maxHeartbeats 1000000

namespace UserExec

/-- Row models Go's map[string]string: an association list from column
names to values, with unique keys. -/
abbrev Row := List (String × String)

/-- Row lookup, modelling reading m[k] from a Go string map. -/
def Row.get (r : Row) (k : String) : Option String :=
  (r.find? (fun p => p.1 == k)).map (fun p => p.2)

/-- Row update, modelling the Go map assignment m[k] = v: the key k is
bound to v, replacing any previous binding. -/
def Row.set (r : Row) (k v : String) : Row :=
  (k, v) :: r.filter (fun p => p.1 != k)

/-- Boolean test for the error side of an Except value. -/
def exceptIsError {ε α : Type} : Except ε α → Bool
  | Except.error _ => true
  | Except.ok _ => false

/-- Filesystem- and process-visible actions performed by
ExecOsqueryLaunchctl, in program order.  mkdir records os.MkdirTemp
(which creates the directory with mode 0o700), chmod records os.Chmod,
spawn records cmd.Run of the launchctl invocation for the given
username with the given working directory, removeAll records
os.RemoveAll. -/
inductive Event where
  | withTimeout (seconds : Nat)
  | mkdir (dir : String) (mode : Nat)
  | chmod (dir : String) (mode : Nat)
  | spawn (username : String) (argv : List String) (dir : String)
  | removeAll (dir : String)
  deriving Repr, DecidableEq

/-- Outcomes of the effectful calls made by one ExecOsqueryLaunchctl
invocation: user.Lookup (returns the uid), os.MkdirTemp (returns the
directory name), os.Chmod, and cmd.Run (returns captured stdout, or the
captured stderr text on failure, which covers non-zero exit, spawn
failure and context timeout). -/
structure ExecEnv where
  lookup : Except String String
  mkdirTemp : Except String String
  chmod : Except String Unit
  run : Except String String

/-- ExecOsqueryLaunchctl runs osquery under launchctl in a user
context: it sets a timeout context, resolves the username, builds the
launchctl asuser command line, creates a scratch temp directory
(removed again on every later exit path, mirroring the Go defer),
chmods it to 0o755, sets it as the working directory and runs the
command, returning captured stdout. -/
def ExecOsqueryLaunchctl (timeoutSeconds : Nat) (username : String)
    (osqueryPath : String) (query : String) (e : ExecEnv) :
    Except String String × List Event :=
  match e.lookup with
  | Except.error msg =>
      (Except.error ("looking up username " ++ username ++ ": " ++ msg),
       [Event.withTimeout timeoutSeconds])
  | Except.ok uid =>
    match e.mkdirTemp with
    | Except.error msg =>
        (Except.error ("mktemp: " ++ msg), [Event.withTimeout timeoutSeconds])
    | Except.ok dir =>
      match e.chmod with
      | Except.error msg =>
          (Except.error ("chmod: " ++ msg),
           [Event.withTimeout timeoutSeconds, Event.mkdir dir 0o700,
            Event.removeAll dir])
      | Except.ok _ =>
        match e.run with
        | Except.error stderr =>
            (Except.error ("running osquery: " ++ stderr),
             [Event.withTimeout timeoutSeconds, Event.mkdir dir 0o700,
              Event.chmod dir 0o755,
              Event.spawn username
                ["launchctl", "asuser", uid, osqueryPath,
                 "--config_path", "/dev/null", "--disable_events",
                 "--disable_database", "--disable_audit", "--ephemeral",
                 "-S", "--json", query] dir,
              Event.removeAll dir])
        | Except.ok stdout =>
            (Except.ok stdout,
             [Event.withTimeout timeoutSeconds, Event.mkdir dir 0o700,
              Event.chmod dir 0o755,
              Event.spawn username
                ["launchctl", "asuser", uid, osqueryPath,
                 "--config_path", "/dev/null", "--disable_events",
                 "--disable_database", "--disable_audit", "--ephemeral",
                 "-S", "--json", query] dir,
              Event.removeAll dir])

/-- Per-user environment: the outcomes of the exec-level calls plus the
behaviour of json.Unmarshal on the captured stdout.  Unmarshal is
modelled as returning both the rows it managed to fill in (possibly a
partial prefix when it fails midway, as a Go Unmarshal may leave in the
target slice) and an optional error. -/
structure UserEnv where
  exec : ExecEnv
  unmarshal : String → List Row × Option String

/-- ExecOsqueryLaunchctlParsed runs ExecOsqueryLaunchctl and
json-unmarshals its stdout into rows; on an unmarshal error it returns
nil rows and the wrapped error, discarding anything the unmarshaller
partially produced. -/
def ExecOsqueryLaunchctlParsed (timeoutSeconds : Nat) (username : String)
    (osqueryPath : String) (query : String) (ue : UserEnv) :
    Except String (List Row) × List Event :=
  match (ExecOsqueryLaunchctl timeoutSeconds username osqueryPath query ue.exec).1 with
  | Except.error e =>
      (Except.error e,
       (ExecOsqueryLaunchctl timeoutSeconds username osqueryPath query ue.exec).2)
  | Except.ok outBytes =>
    match (ue.unmarshal outBytes).2 with
    | some e =>
        (Except.error ("unmarshalling json: " ++ e),
         (ExecOsqueryLaunchctl timeoutSeconds username osqueryPath query ue.exec).2)
    | none =>
        (Except.ok (ue.unmarshal outBytes).1,
         (ExecOsqueryLaunchctl timeoutSeconds username osqueryPath query ue.exec).2)

/-- The allowlist constant from exec.go, character for character. -/
def allowedUsernameCharacters : String :=
  "abcdefghijklmnopqrstuvwxyzABCDEFGHIJKLMNOPQRSTUVWXYZ0123456789_-. "

/-- True when every character of s belongs to the allowed set. -/
def onlyAllowedCharacters (allowed : String) (s : String) : Bool :=
  s.data.all (fun c => allowed.data.contains c)

/-- Query context passed by osquery to the generate callback: for each
column name, the list of constraint values on that column. -/
structure QueryContext where
  constraints : List (String × List String)
  deriving Repr, DecidableEq

/-- Modelled from the spec: tablehelpers.GetConstraints with
WithAllowedCharacters comes from the external launcher library and is
not part of this repository.  Per the spec it extracts all values
constrained on the given column and silently drops any value containing
a character outside the allowlist. -/
def GetConstraints (qc : QueryContext) (columnName : String)
    (allowed : String) : List String :=
  ((qc.constraints.filter (fun p => p.1 == columnName)).flatMap (fun p => p.2)).filter
    (fun v => onlyAllowedCharacters allowed v)

/-- Table carries the osqueryd path, the fixed query and the table
name, as in exec.go. -/
structure Table where
  osqueryd : String
  query : String
  tablename : String
  deriving Repr, DecidableEq

/-- The body of generate's for-loop over the requested usernames: a
per-user error skips that user; on success each decoded row has its
user column set to the requesting username and is appended. -/
def generateLoop (t : Table) (env : String → UserEnv) :
    List String → List Row × List Event
  | [] => ([], [])
  | u :: rest =>
    match (ExecOsqueryLaunchctlParsed 5 u t.osqueryd t.query (env u)).1 with
    | Except.error _ =>
        ((generateLoop t env rest).1,
         (ExecOsqueryLaunchctlParsed 5 u t.osqueryd t.query (env u)).2 ++
           (generateLoop t env rest).2)
    | Except.ok rows =>
        (rows.map (fun r => Row.set r "user" u) ++ (generateLoop t env rest).1,
         (ExecOsqueryLaunchctlParsed 5 u t.osqueryd t.query (env u)).2 ++
           (generateLoop t env rest).2)

/-- Table.generate: extract the usernames constrained on the user
column, fail if none remain, otherwise run the per-user pipeline with a
fixed 5-second timeout and return the merged rows with a nil error. -/
def Table.generate (t : Table) (env : String → UserEnv) (qc : QueryContext) :
    Except String (List Row) × List Event :=
  if (GetConstraints qc "user" allowedUsernameCharacters).length = 0 then
    (Except.error ("The " ++ t.tablename ++ " table requires a user"), [])
  else
    (Except.ok (generateLoop t env (GetConstraints qc "user" allowedUsernameCharacters)).1,
     (generateLoop t env (GetConstraints qc "user" allowedUsernameCharacters)).2)

/-- Column types of the osquery table plugin contract (only TEXT is
used here). -/
inductive ColumnType where
  | text
  deriving Repr, DecidableEq

/-- A column of the virtual table schema. -/
structure ColumnDefinition where
  name : String
  ctype : ColumnType
  deriving Repr, DecidableEq

/-- table.TextColumn. -/
def TextColumn (n : String) : ColumnDefinition :=
  { name := n, ctype := ColumnType.text }

/-- An osquery table plugin: name, schema, and the generate callback. -/
structure Plugin where
  name : String
  columns : List ColumnDefinition
  gen : (String → UserEnv) → QueryContext → Except String (List Row) × List Event

/-- TablePlugin appends the mandatory user text column and wires up
Table.generate as the plugin's row generator; no timeout parameter
exists. -/
def TablePlugin (tablename : String) (osqueryd : String)
    (osqueryQuery : String) (columns : List ColumnDefinition) : Plugin :=
  { name := tablename,
    columns := columns ++ [TextColumn "user"],
    gen := Table.generate
      { osqueryd := osqueryd, query := osqueryQuery, tablename := tablename } }

/-- The rows that one username contributes to the merged result: none
on a per-user error, otherwise the decoded rows with the user column
forced to that username. -/
def userRows (t : Table) (env : String → UserEnv) (u : String) : List Row :=
  match (ExecOsqueryLaunchctlParsed 5 u t.osqueryd t.query (env u)).1 with
  | Except.error _ => []
  | Except.ok ds => ds.map (fun d => Row.set d "user" u)

/-- One step of replaying a trace against a set of existing directory
names. -/
def dirsStep (ds : List String) (e : Event) : List String :=
  match e with
  | Event.mkdir d _ => ds ++ [d]
  | Event.removeAll d => ds.filter (fun x => x != d)
  | _ => ds

/-- The directories still present after a trace, starting from an empty
filesystem. -/
def dirsAfter (tr : List Event) : List String :=
  tr.foldl dirsStep []

/-- Helper scanning a trace while tracking the last mode set for each
directory; returns the mode of the working directory at the first spawn
event. -/
def modeAtSpawnAux : List (String × Nat) → List Event → Option Nat
  | _, [] => none
  | modes, Event.mkdir d m :: rest => modeAtSpawnAux ((d, m) :: modes) rest
  | modes, Event.chmod d m :: rest => modeAtSpawnAux ((d, m) :: modes) rest
  | modes, Event.spawn _ _ d :: _ =>
      (modes.find? (fun p => p.1 == d)).map (fun p => p.2)
  | modes, _ :: rest => modeAtSpawnAux modes rest

/-- The permission mode of the subprocess working directory at the
moment the first subprocess is spawned in the trace. -/
def modeAtSpawn (tr : List Event) : Option Nat :=
  modeAtSpawnAux [] tr

/-- The timeouts, in seconds, installed by the trace, one per runner
invocation. -/
def timeoutsOf (tr : List Event) : List Nat :=
  tr.filterMap (fun e =>
    match e with
    | Event.withTimeout s => some s
    | _ => none)

/-- A concrete table instance used for evaluations. -/
def tblC : Table :=
  { osqueryd := "/usr/local/bin/osqueryd", query := "select 1",
    tablename := "user_settings" }

/-- A query context constraining the user column to alice. -/
def qcAlice : QueryContext := { constraints := [("user", ["alice"])] }

/-- A query context whose user constraints hold one valid name and one
injection attempt with disallowed characters. -/
def qcAliceEvil : QueryContext :=
  { constraints := [("user", ["alice", "bob; rm -rf /"])] }

/-- A query context with no constraint on the user column. -/
def qcNoUser : QueryContext := { constraints := [("uid", ["501"])] }

/-- An environment in which every call succeeds and the captured output
decodes to a single row. -/
def envOk : String → UserEnv := fun _ =>
  { exec := { lookup := Except.ok "501",
              mkdirTemp := Except.ok "/tmp/osq-launchctl42",
              chmod := Except.ok (), run := Except.ok "rawout" },
    unmarshal := fun _ => ([[("key", "v")]], none) }

/-- An environment in which identity lookup fails for every user. -/
def envLookupFail : String → UserEnv := fun _ =>
  { exec := { lookup := Except.error "unknown user",
              mkdirTemp := Except.ok "/tmp/osq-launchctl42",
              chmod := Except.ok (), run := Except.ok "rawout" },
    unmarshal := fun _ => ([], none) }

/-- An environment in which creating the scratch directory fails. -/
def envMkdirFail : String → UserEnv := fun _ =>
  { exec := { lookup := Except.ok "501",
              mkdirTemp := Except.error "no space left on device",
              chmod := Except.ok (), run := Except.ok "rawout" },
    unmarshal := fun _ => ([], none) }

/-- An environment in which the subprocess succeeds but its output is
malformed: the unmarshaller fills in a partial row before failing. -/
def envPartialDecode : String → UserEnv := fun _ =>
  { exec := { lookup := Except.ok "501",
              mkdirTemp := Except.ok "/tmp/osq-launchctl42",
              chmod := Except.ok (), run := Except.ok "rawout" },
    unmarshal := fun _ => ([[("key", "partial")]], some "unexpected end of input") }

/-- An environment whose decoded row tries to spoof the user column. -/
def envSpoof : String → UserEnv := fun _ =>
  { exec := { lookup := Except.ok "501",
              mkdirTemp := Except.ok "/tmp/osq-launchctl42",
              chmod := Except.ok (), run := Except.ok "rawout" },
    unmarshal := fun _ => ([[("user", "mallory"), ("key", "v")]], none) }

/-- The command line spawned for alice under envOk and tblC. -/
def argvAlice : List String :=
  ["launchctl", "asuser", "501", "/usr/local/bin/osqueryd", "--config_path",
   "/dev/null", "--disable_events", "--disable_database", "--disable_audit",
   "--ephemeral", "-S", "--json", "select 1"]

/-- Setting a key makes it the value subsequently read back, whatever
binding the row carried before. -/
theorem Row.get_set (r : Row) (k v : String) :
    Row.get (Row.set r k v) k = some v := by
  unfold Row.get Row.set
  rw [List.find?_cons_of_pos]
  · rfl
  · simp

/-- The parsed runner performs exactly the filesystem and process
actions of the underlying runner. -/
theorem parsed_trace (n : Nat) (u p q : String) (ue : UserEnv) :
    (ExecOsqueryLaunchctlParsed n u p q ue).2 =
      (ExecOsqueryLaunchctl n u p q ue.exec).2 := by
  unfold ExecOsqueryLaunchctlParsed
  cases h : (ExecOsqueryLaunchctl n u p q ue.exec).1 with
  | error e => simp [h]
  | ok s => cases h2 : (ue.unmarshal s).2 <;> simp [h, h2]

/-- Every exit path of the runner installs exactly its own timeout. -/
theorem exec_timeouts (n : Nat) (u p q : String) (e : ExecEnv) :
    timeoutsOf (ExecOsqueryLaunchctl n u p q e).2 = [n] := by
  rcases e with ⟨lk, mk, ch, rn⟩
  cases lk <;> cases mk <;> cases ch <;> cases rn <;>
    simp [ExecOsqueryLaunchctl, timeoutsOf]

/-- Any spawn event in a runner trace carries the username the runner
was invoked for. -/
theorem exec_spawn_user (n : Nat) (u p q : String) (e : ExecEnv)
    (u2 : String) (argv : List String) (d : String)
    (h : Event.spawn u2 argv d ∈ (ExecOsqueryLaunchctl n u p q e).2) :
    u2 = u := by
  rcases e with ⟨lk, mk, ch, rn⟩
  cases lk <;> cases mk <;> cases ch <;> cases rn <;>
    simp [ExecOsqueryLaunchctl] at h <;> tauto

/-- The rows assembled by generate's loop are the concatenation of each
username's contribution. -/
theorem loop_rows_eq (t : Table) (env : String → UserEnv) (us : List String) :
    (generateLoop t env us).1 = us.flatMap (userRows t env) := by
  induction us with
  | nil => simp [generateLoop]
  | cons u rest ih =>
    cases h : (ExecOsqueryLaunchctlParsed 5 u t.osqueryd t.query (env u)).1 with
    | error e => simp [generateLoop, h, userRows, ih]
    | ok ds => simp [generateLoop, h, userRows, ih]

/-- The trace of generate's loop is the concatenation of each
username's runner trace. -/
theorem loop_trace_eq (t : Table) (env : String → UserEnv) (us : List String) :
    (generateLoop t env us).2 =
      us.flatMap (fun u =>
        (ExecOsqueryLaunchctl 5 u t.osqueryd t.query (env u).exec).2) := by
  induction us with
  | nil => simp [generateLoop]
  | cons u rest ih =>
    cases h : (ExecOsqueryLaunchctlParsed 5 u t.osqueryd t.query (env u)).1 with
    | error e => simp [generateLoop, h, ih, parsed_trace]
    | ok ds => simp [generateLoop, h, ih, parsed_trace]

/-- With a non-empty username set, generate returns ok of the merged
per-user contributions. -/
theorem generate_ok_of_ne (t : Table) (env : String → UserEnv)
    (qc : QueryContext)
    (hne : GetConstraints qc "user" allowedUsernameCharacters ≠ []) :
    (t.generate env qc).1 =
      Except.ok ((GetConstraints qc "user" allowedUsernameCharacters).flatMap
        (userRows t env)) := by
  unfold Table.generate
  rw [if_neg (by simpa [List.length_eq_zero] using hne)]
  simp [loop_rows_eq]

/-- Every username surviving GetConstraints passes the character
allowlist. -/
theorem mem_getConstraints_allowed (qc : QueryContext) (col allowed u : String)
    (h : u ∈ GetConstraints qc col allowed) :
    onlyAllowedCharacters allowed u = true := by
  unfold GetConstraints at h
  exact (List.mem_filter.mp h).2

/-- Timeouts distribute over trace concatenation. -/
theorem timeoutsOf_append (a b : List Event) :
    timeoutsOf (a ++ b) = timeoutsOf a ++ timeoutsOf b := by
  simp [timeoutsOf, List.filterMap_append]

/-- A flatMap of traces each installing one 5-second timeout installs
one 5-second timeout per element. -/
theorem timeoutsOf_flatMap (us : List String) (f : String → List Event)
    (h : ∀ u, timeoutsOf (f u) = [5]) :
    timeoutsOf (us.flatMap f) = us.map (fun _ => 5) := by
  induction us with
  | nil => rfl
  | cons u rest ih =>
    rw [List.flatMap_cons, timeoutsOf_append, h, ih]
    rfl

/-- C1: if the set of usernames extracted from the query constraints is
empty, generate fails the whole table-generation call with the
missing-required-constraint error, returning no rows. -/
theorem c1_generate_fails_without_user (t : Table) (env : String → UserEnv)
    (qc : QueryContext)
    (h : GetConstraints qc "user" allowedUsernameCharacters = []) :
    (t.generate env qc).1 =
      Except.error ("The " ++ t.tablename ++ " table requires a user") := by
  unfold Table.generate
  rw [h]
  rfl

theorem c1_witness :
    GetConstraints qcNoUser "user" allowedUsernameCharacters = [] ∧
    (Table.generate tblC envOk qcNoUser).1 =
      Except.error "The user_settings table requires a user" :=
  ⟨rfl, c1_generate_fails_without_user tblC envOk qcNoUser rfl⟩

/-- C2: for a non-empty username list, generate skips every username
whose run-and-decode step errors and continues with the rest: skipping
a failing head leaves the loop result unchanged, and when every
username fails generate returns the empty row list with a nil error. -/
theorem c2_per_user_errors_skipped (t : Table) (env : String → UserEnv)
    (qc : QueryContext)
    (hne : GetConstraints qc "user" allowedUsernameCharacters ≠ [])
    (hall : ∀ u ∈ GetConstraints qc "user" allowedUsernameCharacters,
      exceptIsError (ExecOsqueryLaunchctlParsed 5 u t.osqueryd t.query (env u)).1 = true) :
    (t.generate env qc).1 = Except.ok [] ∧
    ∀ (u : String) (us : List String),
      exceptIsError (ExecOsqueryLaunchctlParsed 5 u t.osqueryd t.query (env u)).1 = true →
      (generateLoop t env (u :: us)).1 = (generateLoop t env us).1 := by
  constructor
  · rw [generate_ok_of_ne t env qc hne]
    congr 1
    rw [List.flatMap_eq_nil_iff]
    intro u hu
    have h := hall u hu
    unfold userRows
    cases h2 : (ExecOsqueryLaunchctlParsed 5 u t.osqueryd t.query (env u)).1 with
    | error e => rfl
    | ok ds => rw [h2] at h; simp [exceptIsError] at h
  · intro u us h
    cases h2 : (ExecOsqueryLaunchctlParsed 5 u t.osqueryd t.query (env u)).1 with
    | error e => simp [generateLoop, h2]
    | ok ds => rw [h2] at h; simp [exceptIsError] at h

theorem c2_witness :
    (GetConstraints qcAlice "user" allowedUsernameCharacters ≠ []) ∧
    (Table.generate tblC envLookupFail qcAlice).1 = Except.ok [] :=
  ⟨by decide,
   (c2_per_user_errors_skipped tblC envLookupFail qcAlice (by decide)
     (by decide)).1⟩

/-- C3: every row in a successful generate result carries a user value
that is one of the usernames extracted from the query constraints. -/
theorem c3_rows_user_from_request (t : Table) (env : String → UserEnv)
    (qc : QueryContext) (rows : List Row)
    (h : (t.generate env qc).1 = Except.ok rows) :
    ∀ r ∈ rows, ∃ u, u ∈ GetConstraints qc "user" allowedUsernameCharacters ∧
      Row.get r "user" = some u := by
  intro r hr
  by_cases hc : GetConstraints qc "user" allowedUsernameCharacters = []
  · unfold Table.generate at h
    rw [hc] at h
    simp at h
  · rw [generate_ok_of_ne t env qc hc] at h
    have hrows : rows =
        (GetConstraints qc "user" allowedUsernameCharacters).flatMap (userRows t env) := by
      injection h.symm
    rw [hrows] at hr
    rcases List.mem_flatMap.mp hr with ⟨u, hu, hru⟩
    refine ⟨u, hu, ?_⟩
    unfold userRows at hru
    cases h2 : (ExecOsqueryLaunchctlParsed 5 u t.osqueryd t.query (env u)).1 with
    | error e => rw [h2] at hru; simp at hru
    | ok ds =>
      rw [h2] at hru
      rcases List.mem_map.mp hru with ⟨d, _, hd⟩
      rw [← hd]
      exact Row.get_set d "user" u

theorem c3_witness :
    ∃ u, u ∈ GetConstraints qcAlice "user" allowedUsernameCharacters ∧
      Row.get [("user", "alice"), ("key", "v")] "user" = some u :=
  c3_rows_user_from_request tblC envOk qcAlice
    [[("user", "alice"), ("key", "v")]] rfl _ (by simp)

/-- C4 counterexample: a scratch-workspace creation failure does not
abort the whole call: with mkdirTemp failing for the single requested
user alice, the run-and-decode step fails for alice, yet generate
returns Except.ok with no rows instead of a call-level error. -/
theorem c4_counterexample :
    (envMkdirFail "alice").exec.mkdirTemp = Except.error "no space left on device" ∧
    exceptIsError (ExecOsqueryLaunchctlParsed 5 "alice" tblC.osqueryd tblC.query
      (envMkdirFail "alice")).1 = true ∧
    (Table.generate tblC envMkdirFail qcAlice).1 = Except.ok [] :=
  ⟨rfl, rfl, rfl⟩

/-- C4 (amended): a scratch-workspace creation failure is a per-user
error, not a call-level one: the runner fails for that username with
the mktemp error, and generate (given a non-empty username set) still
returns Except.ok, skipping the affected user like any other per-user
failure. -/
theorem c4_mkdir_failure_per_user (t : Table) (env : String → UserEnv)
    (qc : QueryContext) (u uid msg : String)
    (hlk : (env u).exec.lookup = Except.ok uid)
    (hmk : (env u).exec.mkdirTemp = Except.error msg)
    (hne : GetConstraints qc "user" allowedUsernameCharacters ≠ []) :
    (ExecOsqueryLaunchctl 5 u t.osqueryd t.query (env u).exec).1 =
      Except.error ("mktemp: " ++ msg) ∧
    ∃ rows, (t.generate env qc).1 = Except.ok rows := by
  constructor
  · simp [ExecOsqueryLaunchctl, hlk, hmk]
  · exact ⟨_, generate_ok_of_ne t env qc hne⟩

theorem c4_witness :
    (ExecOsqueryLaunchctl 5 "alice" tblC.osqueryd tblC.query
      (envMkdirFail "alice").exec).1 =
      Except.error ("mktemp: " ++ "no space left on device") ∧
    ∃ rows, (Table.generate tblC envMkdirFail qcAlice).1 = Except.ok rows :=
  c4_mkdir_failure_per_user tblC envMkdirFail qcAlice "alice" "501"
    "no space left on device" rfl rfl (by decide)

/-- C5 counterexample: in a fully successful run, the permission mode
in force on the scratch working directory when the subprocess is
spawned is 0o755, whose other-users permission bits are not zero: the
mode grants other users read and execute access instead of denying
them access. -/
theorem c5_counterexample :
    modeAtSpawn (ExecOsqueryLaunchctl 5 "alice" "/usr/local/bin/osqueryd"
      "select 1" (envOk "alice").exec).2 = some 0o755 ∧
    ¬ (0o755 % 8 = 0) :=
  ⟨rfl, by decide⟩

/-- C5 (amended): the scratch workspace is created with mode 0o700 and
then explicitly chmodded to 0o755 before the subprocess runs, so the
mode in force at spawn time is 0o755: writable only by its owner, but
readable and traversable by group and other users, not
access-restricted. -/
theorem c5_workspace_mode_at_spawn (timeoutSeconds : Nat)
    (username osqueryPath query : String) (e : ExecEnv) (uid d : String)
    (hlk : e.lookup = Except.ok uid) (hmk : e.mkdirTemp = Except.ok d)
    (hch : e.chmod = Except.ok ()) :
    Event.mkdir d 0o700 ∈
      (ExecOsqueryLaunchctl timeoutSeconds username osqueryPath query e).2 ∧
    modeAtSpawn
      (ExecOsqueryLaunchctl timeoutSeconds username osqueryPath query e).2 =
      some 0o755 := by
  cases hr : e.run <;>
    simp [ExecOsqueryLaunchctl, hlk, hmk, hch, hr, modeAtSpawn, modeAtSpawnAux]

theorem c5_witness :
    Event.mkdir "/tmp/osq-launchctl42" 0o700 ∈
      (ExecOsqueryLaunchctl 5 "alice" tblC.osqueryd tblC.query
        (envOk "alice").exec).2 ∧
    modeAtSpawn (ExecOsqueryLaunchctl 5 "alice" tblC.osqueryd tblC.query
      (envOk "alice").exec).2 = some 0o755 :=
  c5_workspace_mode_at_spawn 5 "alice" tblC.osqueryd tblC.query
    (envOk "alice").exec "501" "/tmp/osq-launchctl42" rfl rfl rfl

/-- C6: on every exit path of a runner invocation, the scratch
workspace is removed: replaying the filesystem trace of any invocation
against an empty filesystem leaves no directory behind, whatever the
outcomes of lookup, mkdir, chmod and the subprocess run. -/
theorem c6_workspace_always_removed (timeoutSeconds : Nat)
    (username osqueryPath query : String) (e : ExecEnv) :
    dirsAfter (ExecOsqueryLaunchctl timeoutSeconds username osqueryPath query e).2 = [] := by
  rcases e with ⟨lk, mk, ch, rn⟩
  cases lk <;> cases mk <;> cases ch <;> cases rn <;>
    simp [ExecOsqueryLaunchctl, dirsAfter, dirsStep]

/-- C7: decoding the captured output is atomic: when the runner
succeeds, either the unmarshaller reports no error and the parsed
runner returns exactly the full decoded row list with no error, or it
reports an error and the parsed runner returns an error and no rows,
discarding whatever partial rows the unmarshaller produced. -/
theorem c7_decode_atomic (timeoutSeconds : Nat)
    (username osqueryPath query : String) (ue : UserEnv) (s : String)
    (hok : (ExecOsqueryLaunchctl timeoutSeconds username osqueryPath query ue.exec).1 =
      Except.ok s) :
    ((ue.unmarshal s).2 = none →
      (ExecOsqueryLaunchctlParsed timeoutSeconds username osqueryPath query ue).1 =
        Except.ok (ue.unmarshal s).1) ∧
    (∀ msg, (ue.unmarshal s).2 = some msg →
      (ExecOsqueryLaunchctlParsed timeoutSeconds username osqueryPath query ue).1 =
        Except.error ("unmarshalling json: " ++ msg)) := by
  constructor
  · intro hn
    simp [ExecOsqueryLaunchctlParsed, hok, hn]
  · intro msg hm
    simp [ExecOsqueryLaunchctlParsed, hok, hm]

theorem c7_witness :
    (envPartialDecode "alice").unmarshal "rawout" =
      ([[("key", "partial")]], some "unexpected end of input") ∧
    (ExecOsqueryLaunchctlParsed 5 "alice" tblC.osqueryd tblC.query
      (envPartialDecode "alice")).1 =
      Except.error ("unmarshalling json: " ++ "unexpected end of input") :=
  ⟨rfl,
   (c7_decode_atomic 5 "alice" tblC.osqueryd tblC.query (envPartialDecode "alice")
     "rawout" rfl).2 "unexpected end of input" rfl⟩

/-- C8: a subprocess is only ever spawned for a username that survived
the allowlist filter: any spawn event in a generate trace names a
username drawn from the filtered constraint set, every such username
contains only allowlisted characters, and the allowlist consists
exactly of the letters, digits, underscore, hyphen, period and space
(every allowlisted character is in that class, and over all ASCII the
class coincides with allowlist membership). -/
theorem c8_spawns_only_allowlisted (t : Table) (env : String → UserEnv)
    (qc : QueryContext) (u : String) (argv : List String) (d : String)
    (hs : Event.spawn u argv d ∈ (t.generate env qc).2) :
    u ∈ GetConstraints qc "user" allowedUsernameCharacters ∧
    onlyAllowedCharacters allowedUsernameCharacters u = true ∧
    allowedUsernameCharacters.data.all
      (fun c => c.isAlpha || c.isDigit || c == '_' || c == '-' || c == '.' || c == ' ') = true ∧
    (List.range 128).all (fun n =>
      (Char.isAlpha (Char.ofNat n) || Char.isDigit (Char.ofNat n) ||
        Char.ofNat n == '_' || Char.ofNat n == '-' || Char.ofNat n == '.' ||
        Char.ofNat n == ' ') ==
      allowedUsernameCharacters.data.contains (Char.ofNat n)) = true := by
  have hu : u ∈ GetConstraints qc "user" allowedUsernameCharacters := by
    unfold Table.generate at hs
    by_cases hc : (GetConstraints qc "user" allowedUsernameCharacters).length = 0
    · rw [if_pos hc] at hs
      simp at hs
    · rw [if_neg hc] at hs
      dsimp only at hs
      rw [loop_trace_eq] at hs
      rcases List.mem_flatMap.mp hs with ⟨v, hv, hsv⟩
      have := exec_spawn_user 5 v t.osqueryd t.query (env v).exec u argv d hsv
      subst this
      exact hv
  exact ⟨hu, mem_getConstraints_allowed qc "user" allowedUsernameCharacters u hu,
    by decide, by decide⟩

theorem c8_witness :
    "alice" ∈ GetConstraints qcAliceEvil "user" allowedUsernameCharacters ∧
    onlyAllowedCharacters allowedUsernameCharacters "alice" = true ∧
    allowedUsernameCharacters.data.all
      (fun c => c.isAlpha || c.isDigit || c == '_' || c == '-' || c == '.' || c == ' ') = true ∧
    (List.range 128).all (fun n =>
      (Char.isAlpha (Char.ofNat n) || Char.isDigit (Char.ofNat n) ||
        Char.ofNat n == '_' || Char.ofNat n == '-' || Char.ofNat n == '.' ||
        Char.ofNat n == ' ') ==
      allowedUsernameCharacters.data.contains (Char.ofNat n)) = true :=
  c8_spawns_only_allowlisted tblC envOk qcAliceEvil "alice" argvAlice
    "/tmp/osq-launchctl42" (by decide)

/-- C9: for every username processed, the deadline handed to the runner
is the fixed 5 seconds: the trace of any plugin generate call installs
exactly one 5-second timeout per requested username, and this holds for
every choice of the TablePlugin parameters (table name, osqueryd path,
query, columns), none of which can change the per-invocation timeout. -/
theorem c9_timeout_fixed_five (tablename osqueryd osqueryQuery : String)
    (columns : List ColumnDefinition) (env : String → UserEnv)
    (qc : QueryContext) :
    timeoutsOf ((TablePlugin tablename osqueryd osqueryQuery columns).gen env qc).2 =
      (GetConstraints qc "user" allowedUsernameCharacters).map (fun _ => 5) := by
  show timeoutsOf (Table.generate _ env qc).2 = _
  unfold Table.generate
  by_cases hc : (GetConstraints qc "user" allowedUsernameCharacters).length = 0
  · rw [if_pos hc]
    rw [List.length_eq_zero] at hc
    simp [hc, timeoutsOf]
  · rw [if_neg hc]
    dsimp only
    rw [loop_trace_eq]
    exact timeoutsOf_flatMap _ _ (fun u => exec_timeouts 5 u _ _ _)

/-- C10: generate forces the user column: with a non-empty username
set the merged result is exactly the per-user decoded rows with the
user key set to the requesting username, and whenever a decoded row
already carries a user value, the stored row overwrites it with the
requesting username, so the subprocess cannot control the user column. -/
theorem c10_user_key_overwritten (t : Table) (env : String → UserEnv)
    (qc : QueryContext)
    (hne : GetConstraints qc "user" allowedUsernameCharacters ≠ []) :
    (t.generate env qc).1 =
      Except.ok ((GetConstraints qc "user" allowedUsernameCharacters).flatMap
        (userRows t env)) ∧
    ∀ (u v : String) (ds : List Row) (d : Row),
      (ExecOsqueryLaunchctlParsed 5 u t.osqueryd t.query (env u)).1 = Except.ok ds →
      d ∈ ds → Row.get d "user" = some v →
      Row.set d "user" u ∈ userRows t env u ∧
      Row.get (Row.set d "user" u) "user" = some u := by
  refine ⟨generate_ok_of_ne t env qc hne, ?_⟩
  intro u v ds d hok hd _
  constructor
  · unfold userRows
    rw [hok]
    exact List.mem_map.mpr ⟨d, hd, rfl⟩
  · exact Row.get_set d "user" u

theorem c10_witness :
    ((Table.generate tblC envSpoof qcAlice).1 =
      Except.ok ((GetConstraints qcAlice "user" allowedUsernameCharacters).flatMap
        (userRows tblC envSpoof))) ∧
    (Row.set [("user", "mallory"), ("key", "v")] "user" "alice" ∈
      userRows tblC envSpoof "alice" ∧
     Row.get (Row.set [("user", "mallory"), ("key", "v")] "user" "alice") "user" =
      some "alice") :=
  ⟨(c10_user_key_overwritten tblC envSpoof qcAlice (by decide)).1,
   (c10_user_key_overwritten tblC envSpoof qcAlice (by decide)).2 "alice" "mallory"
     [[("user", "mallory"), ("key", "v")]] [("user", "mallory"), ("key", "v")]
     rfl (by simp) rfl⟩

end UserExec
